import Mathlib

/-!
Verification of the claude-config-manager Profile Store & Activation Engine
specification against the repository's code.

Part 1 embeds the TypeScript presentation layer (src/main.ts) that is present
in the repository: the `Config` record, the HTML-escaping and token-masking
helpers, and the HTML string templates that interpolate user-controlled data.
JavaScript template literals become explicit string concatenation; the
apostrophe and double-quote characters of the generated HTML are written with
the \x27 and \" escapes.

Part 2 models the Rust backend (the Tauri commands add_config, update_config,
delete_config, activate_config, apply_opencode_config living in
src-tauri/src/lib.rs, which is not part of the available sources) from the
specification's words, as explicit state-passing functions.
-/

namespace ConfigManager

/-! ## Part 1: the presentation layer, embedded from src/main.ts -/

/-- The `ConfigType` union type of src/main.ts (line 4): the three tool
families.  The specification calls these EnvFamily (claude), FileFamilyA
(gemini) and FileFamilyB (codex). -/
inductive ConfigType
  | claude
  | gemini
  | codex
deriving DecidableEq

/-- The `Config` interface of src/main.ts (lines 6-13). -/
structure Config where
  id : String
  name : String
  config_type : ConfigType
  api_key : String
  base_url : String
  is_active : Bool
deriving DecidableEq

/-- The CONFIG_TYPE_LABELS lookup table (src/main.ts lines 15-19). -/
def CONFIG_TYPE_LABELS : ConfigType → String
  | .claude => ("Claude")
  | .gemini => ("Gemini")
  | .codex => ("Codex")

/-- The CONFIG_TYPE_COLORS lookup table (src/main.ts lines 21-25). -/
def CONFIG_TYPE_COLORS : ConfigType → String
  | .claude => ("#f97316")
  | .gemini => ("#3b82f6")
  | .codex => ("#8b5cf6")

/-- getKeyLabel (src/main.ts lines 124-133). -/
def getKeyLabel : ConfigType → String
  | .claude => ("ANTHROPIC_AUTH_TOKEN")
  | .gemini => ("GEMINI_API_KEY")
  | .codex => ("API Key")

/-- getUrlLabel (src/main.ts lines 135-144). -/
def getUrlLabel : ConfigType → String
  | .claude => ("ANTHROPIC_BASE_URL")
  | .gemini => ("GOOGLE_GEMINI_BASE_URL")
  | .codex => ("Base URL")

/-- Per-character effect of escapeHtml (src/main.ts lines 435-442).  The
source applies four global single-character replaces in sequence
(& to &amp;, < to &lt;, > to &gt;, \" to &quot;); since no later pattern
occurs in an earlier replacement string, the sequence is the same as this
single left-to-right character map. -/
def escChar (c : Char) : List Char :=
  if c = '&' then ("&amp;").data
  else if c = '<' then ("&lt;").data
  else if c = '>' then ("&gt;").data
  else if c = '\"' then ("&quot;").data
  else [c]

/-- escapeHtml applied to a character list. -/
def escapeList : List Char → List Char
  | [] => []
  | c :: cs => escChar c ++ escapeList cs

/-- escapeHtml (src/main.ts lines 435-442).  The `if (!str) return ""` guard
of the source is subsumed: the empty string maps to the empty string. -/
def escapeHtml (str : String) : String :=
  String.mk (escapeList str.data)

/-- maskToken (src/main.ts lines 444-447):
`token.slice(0, 7) + "..." + token.slice(-4)` for tokens of length at least
10, `"****"` otherwise.  `slice(0,7)` is the first seven characters and
`slice(-4)` the last four, i.e. `drop (length - 4)`. -/
def maskToken (token : String) : String :=
  if token.length < 10 then ("****")
  else String.mk (token.data.take 7 ++ ("...").data ++ token.data.drop (token.length - 4))

/-- Boolean test that `needle` occurs contiguously inside a character list
(verification helper used to locate interpolated segments in the generated
HTML). -/
def hasSeg (needle : List Char) : List Char → Bool
  | [] => needle.isEmpty
  | c :: rest => (needle.isPrefixOf (c :: rest) || hasSeg needle rest)

/-- The per-config item template of renderConfigList (src/main.ts lines
224-252), the body of the `tabConfigs.map` call.  Interpolations `${...}`
of the template literal become string concatenation; the JavaScript
`escapeHtml(config.base_url) || "默认"` shows 默认 when the escaped URL is
empty. -/
def renderConfigItem (config : Config) : String :=
  ("\n        <div class=\"config-item ")
    ++ (if config.is_active then ("active") else ("")) ++
  ("\" onclick=\"activateConfig(\x27") ++ config.id ++
  ("\x27)\" style=\"--type-color: ") ++ CONFIG_TYPE_COLORS config.config_type ++
  ("\">\n          <div class=\"config-header\">\n            <div class=\"config-name-wrapper\">\n              <span class=\"config-type-badge\" style=\"background: ")
    ++ CONFIG_TYPE_COLORS config.config_type ++
  ("\">") ++ CONFIG_TYPE_LABELS config.config_type ++
  ("</span>\n              <span class=\"config-name\">") ++ escapeHtml config.name ++
  ("</span>\n            </div>\n            <div class=\"config-actions\">\n              ")
    ++ (if config.is_active then ("<span class=\"active-badge\">当前</span>") else ("")) ++
  ("\n              <button class=\"btn btn-icon\" onclick=\"event.stopPropagation(); editConfig(\x27")
    ++ config.id ++
  ("\x27)\" title=\"编辑\">\n                <svg width=\"14\" height=\"14\" viewBox=\"0 0 24 24\" fill=\"none\" stroke=\"currentColor\" stroke-width=\"2\">\n                  <path d=\"M11 4H4a2 2 0 00-2 2v14a2 2 0 002 2h14a2 2 0 002-2v-7\"/>\n                  <path d=\"M18.5 2.5a2.121 2.121 0 013 3L12 15l-4 1 1-4 9.5-9.5z\"/>\n                </svg>\n              </button>\n              <button class=\"btn btn-icon btn-danger\" onclick=\"event.stopPropagation(); deleteConfig(\x27")
    ++ config.id ++
  ("\x27)\" title=\"删除\">\n                <svg width=\"14\" height=\"14\" viewBox=\"0 0 24 24\" fill=\"none\" stroke=\"currentColor\" stroke-width=\"2\">\n                  <polyline points=\"3,6 5,6 21,6\"/>\n                  <path d=\"M19,6v14a2,2,0,0,1-2,2H7a2,2,0,0,1-2-2V6m3,0V4a2,2,0,0,1,2-2h4a2,2,0,0,1,2,2v2\"/>\n                </svg>\n              </button>\n            </div>\n          </div>\n          <div class=\"config-details\">\n            <p><strong>Key:</strong> ") ++ maskToken config.api_key ++
  ("</p>\n            <p><strong>URL:</strong> ")
    ++ (if escapeHtml config.base_url = ("") then ("默认") else escapeHtml config.base_url) ++
  ("</p>\n          </div>\n        </div>\n      ")

/-- renderConfigList (src/main.ts lines 206-257): empty-state panel when the
tab has no configs, otherwise the joined item templates. -/
def renderConfigList (currentTab : ConfigType) (tabConfigs : List Config) : String :=
  if tabConfigs.length = 0 then
    ("\n      <div class=\"config-list\">\n        <div class=\"empty-state\">\n          <svg viewBox=\"0 0 24 24\" fill=\"none\" stroke=\"currentColor\" stroke-width=\"1.5\">\n            <path d=\"M9 12h6m-3-3v6m-7 4h14a2 2 0 002-2V7a2 2 0 00-2-2H5a2 2 0 00-2 2v10a2 2 0 002 2z\"/>\n          </svg>\n          <p>暂无 ")
      ++ CONFIG_TYPE_LABELS currentTab ++
    (" 配置</p>\n        </div>\n      </div>\n    ")
  else
    ("\n    <div class=\"config-list\">\n      ")
      ++ String.join (tabConfigs.map renderConfigItem) ++
    ("\n    </div>\n  ")

/-- The JavaScript `config?.f || ""` access pattern of openModal: the field
of the config when present, the empty string otherwise (a falsy, i.e. empty,
field also yields the empty string, which coincides with the field itself). -/
def optField (config : Option Config) (f : Config → String) : String :=
  match config with
  | some c => f c
  | none => ("")

/-- The modal template assigned to modal.innerHTML by openModal (src/main.ts
lines 327-363).  `configType` is the value computed on line 322
(`config?.config_type || (currentTab === "opencode" ? "claude" : currentTab)`).
Note that the api_key input's value attribute interpolates
`config?.api_key || ""` directly, with no escapeHtml call (line 351). -/
def openModalHtml (config : Option Config) (configType : ConfigType) : String :=
  ("\n    <div class=\"modal\">\n      <h2>")
    ++ (match config with
        | some _ => ("编辑配置")
        | none => ("添加配置")) ++
  ("</h2>\n      <form id=\"config-form\">\n        <div class=\"form-group\">\n          <label for=\"name\">配置名称</label>\n          <input type=\"text\" id=\"name\" placeholder=\"例如: 个人账户\" value=\"")
    ++ escapeHtml (optField config Config.name) ++
  ("\" required>\n        </div>\n        ")
    ++ (match config with
        | none =>
          ("\n        <div class=\"form-group\">\n          <label for=\"config_type\">配置类型</label>\n          <select id=\"config_type\" required>\n            <option value=\"claude\" ")
            ++ (if configType = ConfigType.claude then ("selected") else ("")) ++
          (">Claude</option>\n            <option value=\"gemini\" ")
            ++ (if configType = ConfigType.gemini then ("selected") else ("")) ++
          (">Gemini</option>\n            <option value=\"codex\" ")
            ++ (if configType = ConfigType.codex then ("selected") else ("")) ++
          (">Codex</option>\n          </select>\n        </div>\n        ")
        | some _ => ("")) ++
  ("\n        <div class=\"form-group\">\n          <label for=\"api_key\" id=\"key-label\">")
    ++ getKeyLabel configType ++
  ("</label>\n          <input type=\"password\" id=\"api_key\" placeholder=\"sk-...\" value=\"")
    ++ optField config Config.api_key ++
  ("\" required>\n        </div>\n        <div class=\"form-group\">\n          <label for=\"base_url\" id=\"url-label\">")
    ++ getUrlLabel configType ++
  (" (可选)</label>\n          <input type=\"text\" id=\"base_url\" placeholder=\"https://api.example.com\" value=\"")
    ++ escapeHtml (optField config Config.base_url) ++
  ("\">\n        </div>\n        <div class=\"modal-actions\">\n          <button type=\"button\" class=\"btn btn-secondary\" onclick=\"closeModal()\">取消</button>\n          <button type=\"submit\" class=\"btn btn-primary\">")
    ++ (match config with
        | some _ => ("保存")
        | none => ("添加")) ++
  ("</button>\n        </div>\n      </form>\n    </div>\n  ")

/-! ## Part 2: the Profile Store & Activation Engine, modelled from the spec

The Rust backend implementing the engine (src-tauri/src/lib.rs, reached from
the frontend through the Tauri `invoke` calls `get_configs`, `add_config`,
`update_config`, `delete_config`, `activate_config`, `apply_opencode_config`)
is not among the available sources; per the spec's §2 project structure it
holds the configuration storage and environment-variable logic.  The
definitions below are therefore modelled from the specification's words
(spec.md §3, §4, §6, §7), using the spec's names. -/

/-- Modelled from the spec: the `family` enumeration of §3
({EnvFamily, FileFamilyA, FileFamilyB}), corresponding to the claude /
gemini / codex tool groupings of the frontend. -/
inductive Family
  | EnvFamily
  | FileFamilyA
  | FileFamilyB
deriving DecidableEq

/-- Modelled from the spec: the ProfileRecord data model of §3. -/
structure ProfileRecord where
  id : String
  name : String
  family : Family
  secret : String
  endpoint : String
  active : Bool
deriving DecidableEq

/-- Modelled from the spec: the error taxonomy of §7.  The BackendError kinds
(Permission / file / encoding failures) are collapsed into one constructor;
no claim distinguishes them. -/
inductive EngineError
  | ValidationError
  | NotFoundError
  | BackendError
  | StorageError
deriving DecidableEq

/-- Modelled from the spec: the real configuration surfaces of §6 — one slot
per family (environment-store entries for EnvFamily, a JSON file for each of
FileFamilyA/FileFamilyB), each holding the applied profile's
(secret, endpoint) pair or nothing when clear. -/
structure Surfaces where
  env : Option (String × String)
  fileA : Option (String × String)
  fileB : Option (String × String)
deriving DecidableEq

/-- The surface slot of one family. -/
def Surfaces.read (s : Surfaces) : Family → Option (String × String)
  | .EnvFamily => s.env
  | .FileFamilyA => s.fileA
  | .FileFamilyB => s.fileB

/-- Modelled from the spec: the backend `clear(family)` surface effect
(§4.2) — remove/blank the family's surface. -/
def Surfaces.clear (s : Surfaces) : Family → Surfaces
  | .EnvFamily => { s with env := none }
  | .FileFamilyA => { s with fileA := none }
  | .FileFamilyB => { s with fileB := none }

/-- Modelled from the spec: the backend `apply(record)` surface effect
(§4.2) — push the record's secret/endpoint into its family's surface. -/
def Surfaces.write (s : Surfaces) (r : ProfileRecord) : Surfaces :=
  match r.family with
  | .EnvFamily => { s with env := some (r.secret, r.endpoint) }
  | .FileFamilyA => { s with fileA := some (r.secret, r.endpoint) }
  | .FileFamilyB => { s with fileB := some (r.secret, r.endpoint) }

/-- Modelled from the spec: the MergeWriter output document of §4.4/§6 — one
optional section per family, each holding a profile's (secret, endpoint). -/
structure MergedDoc where
  envSection : Option (String × String)
  fileASection : Option (String × String)
  fileBSection : Option (String × String)
deriving DecidableEq

/-- Modelled from the spec: the whole engine state — the ProfileStore
collection (insertion order preserved, §4.1), the per-family real
configuration surfaces, and the MergeWriter's output document. -/
structure EngineState where
  store : List ProfileRecord
  surfaces : Surfaces
  outputDoc : Option MergedDoc
deriving DecidableEq

/-- Modelled from the spec: whether the backend `clear`/`apply` calls succeed
(§4.2: they fail with BackendError on I/O or permission failure).  A behavior
value fixes the outcome of each possible backend call. -/
structure BackendBehavior where
  clearOk : Family → Bool
  applyOk : ProfileRecord → Bool

/-- Store lookup by id, shared by all engine operations. -/
def findProfile (store : List ProfileRecord) (id : String) : Option ProfileRecord :=
  store.find? (fun r => decide (r.id = id))

/-- Modelled from the spec: the `set_active(id, value)` low-level primitive of
§4.1 — flip one record's active flag, not itself enforcing the
one-active-per-family invariant.  (The §4.1 contract refuses an unknown id;
the ActivationEngine, its only caller, only passes ids it has already
resolved, so the flip is total here.) -/
def set_active (store : List ProfileRecord) (id : String) (v : Bool) : List ProfileRecord :=
  store.map (fun r => if r.id = id then { r with active := v } else r)

/-- The currently-active record of `family` other than `id` (the "different
record of the same family … currently active" of §4.3 step 2). -/
def findOtherActive (store : List ProfileRecord) (family : Family) (id : String) :
    Option ProfileRecord :=
  store.find? (fun r => decide (r.family = family ∧ r.active = true ∧ r.id ≠ id))

/-- Modelled from the spec: `add_profile` (§4.1 add / §6) — ValidationError on
an empty name, otherwise append a record with `active = false` (FIFO-on-create
ordering).  Id generation is opaque in the spec ("assigns a new unique id");
the id is passed explicitly here, and reachability (below) carries the
freshness guarantee. -/
def add_profile (st : EngineState) (id name : String) (family : Family)
    (secret endpoint : String) : Except EngineError ProfileRecord × EngineState :=
  if name = ("") then (.error .ValidationError, st)
  else
    let r : ProfileRecord := ⟨id, name, family, secret, endpoint, false⟩
    (.ok r, { st with store := st.store ++ [r] })

/-- Modelled from the spec: `update_profile` (§4.1 update / §6) —
NotFoundError if the id is absent; otherwise rewrite only the name, secret
and endpoint of the matching record (`family` is immutable, §3). -/
def update_profile (st : EngineState) (id name secret endpoint : String) :
    Except EngineError ProfileRecord × EngineState :=
  match findProfile st.store id with
  | none => (.error .NotFoundError, st)
  | some r =>
    (.ok { r with name := name, secret := secret, endpoint := endpoint },
     { st with store := st.store.map (fun x =>
         if x.id = id then { x with name := name, secret := secret, endpoint := endpoint }
         else x) })

/-- Modelled from the spec: `delete_profile` (§4.1 delete, §3 lifecycle) —
NotFoundError if absent; deleting an active record first clears its family's
real configuration surface (the deactivate_current sequence of §4.3) and
aborts with the backend's error if that clear fails (fail closed, §9);
otherwise the record is removed. -/
def delete_profile (beh : BackendBehavior) (st : EngineState) (id : String) :
    Except EngineError Unit × EngineState :=
  match findProfile st.store id with
  | none => (.error .NotFoundError, st)
  | some r =>
    if r.active then
      if beh.clearOk r.family then
        (.ok (), { st with store := st.store.filter (fun x => decide (x.id ≠ id)),
                           surfaces := st.surfaces.clear r.family })
      else (.error .BackendError, st)
    else
      (.ok (), { st with store := st.store.filter (fun x => decide (x.id ≠ id)) })

/-- Modelled from the spec: `activate_profile` (§4.3) —
1. resolve the target id (NotFoundError if absent);
2. if a different record of the same family is active, clear that family's
   surface, aborting with the backend's error if the clear fails (the old
   profile stays active, fail closed);
3. apply the target; if this fails the store's active flags are unchanged
   from before the call (§8: no partial activation — the flag flips of
   steps 2 and 4 are committed together only on success, though the surface
   already cleared in step 2 stays cleared);
4. on success flip the old record's flag off and the target's flag on. -/
def activate_profile (beh : BackendBehavior) (st : EngineState) (id : String) :
    Except EngineError ProfileRecord × EngineState :=
  match findProfile st.store id with
  | none => (.error .NotFoundError, st)
  | some target =>
    match findOtherActive st.store target.family id with
    | some old =>
      if beh.clearOk target.family then
        if beh.applyOk target then
          (.ok target,
           { st with store := set_active (set_active st.store old.id false) id true,
                     surfaces := (st.surfaces.clear target.family).write target })
        else
          (.error .BackendError, { st with surfaces := st.surfaces.clear target.family })
      else (.error .BackendError, st)
    | none =>
      if beh.applyOk target then
        (.ok target, { st with store := set_active st.store id true,
                               surfaces := st.surfaces.write target })
      else (.error .BackendError, st)

/-- Modelled from the spec: the MergeWriter selection (§4.4) — a mapping from
family to optional profile id.  The frontend passes these as claudeId /
geminiId / codexId (src/main.ts lines 106-110). -/
structure Selection where
  envId : Option String
  fileAId : Option String
  fileBId : Option String
deriving DecidableEq

/-- Resolve one selection slot to its output-document section: absent
families are omitted (none), a present id must resolve (NotFoundError
otherwise) and projects the record's secret/endpoint. -/
def resolveSection (store : List ProfileRecord) :
    Option String → Except EngineError (Option (String × String))
  | none => .ok none
  | some pid =>
    match findProfile store pid with
    | none => .error .NotFoundError
    | some r => .ok (some (r.secret, r.endpoint))

/-- Modelled from the spec: `apply_merged_config` (§4.4) — ValidationError if
the selection is entirely empty (nothing to write, and no output document is
written); otherwise resolve every selected id and atomically replace the
output document with the fully regenerated one.  The ProfileStore collection
and the activation surfaces are never touched. -/
def apply_merged_config (st : EngineState) (sel : Selection) :
    Except EngineError MergedDoc × EngineState :=
  if sel.envId = none ∧ sel.fileAId = none ∧ sel.fileBId = none then
    (.error .ValidationError, st)
  else
    match resolveSection st.store sel.envId, resolveSection st.store sel.fileAId,
          resolveSection st.store sel.fileBId with
    | .ok a, .ok b, .ok c =>
      (.ok ⟨a, b, c⟩, { st with outputDoc := some ⟨a, b, c⟩ })
    | _, _, _ => (.error .NotFoundError, st)

/-! ### Persistence (spec §4.1 persistence / §6 persisted store file)

The store file is "one structured document containing the full ProfileRecord
collection … schema = array of records with fields id, name, family, secret,
endpoint, active".  The document is modelled as a small JSON value tree;
family values are serialized as the frontend's config_type strings. -/

/-- A structured-document value: the fragment of JSON needed by the persisted
store schema. -/
inductive JVal
  | str (s : String)
  | bool (b : Bool)
  | arr (xs : List JVal)
  | obj (fields : List (String × JVal))

/-- Family serialization, using the config_type strings of the frontend. -/
def familyToString : Family → String
  | .EnvFamily => ("claude")
  | .FileFamilyA => ("gemini")
  | .FileFamilyB => ("codex")

/-- Family deserialization. -/
def familyOfString : String → Option Family
  | "claude" => some .EnvFamily
  | "gemini" => some .FileFamilyA
  | "codex" => some .FileFamilyB
  | _ => none

/-- Modelled from the spec: one serialized record of the persisted store file
(§6 schema: fields id, name, family, secret, endpoint, active). -/
def encodeRecord (r : ProfileRecord) : JVal :=
  .obj [(("id"), .str r.id), (("name"), .str r.name),
        (("family"), .str (familyToString r.family)),
        (("secret"), .str r.secret), (("endpoint"), .str r.endpoint),
        (("active"), .bool r.active)]

/-- Deserialization of one record: accepts exactly the schema produced by
`encodeRecord`. -/
def decodeRecord : JVal → Option ProfileRecord
  | .obj [(("id"), .str i), (("name"), .str n), (("family"), .str f),
          (("secret"), .str s), (("endpoint"), .str e), (("active"), .bool a)] =>
    match familyOfString f with
    | some fam => some ⟨i, n, fam, s, e, a⟩
    | none => none
  | _ => none

/-- Deserialization of a record array, element by element. -/
def decodeRecords : List JVal → Option (List ProfileRecord)
  | [] => some []
  | j :: js =>
    match decodeRecord j, decodeRecords js with
    | some r, some rs => some (r :: rs)
    | _, _ => none

/-- Modelled from the spec: serializing the full collection to the persisted
store file (§4.1: "the full collection is serialized to a single structured
file on every mutating call"). -/
def encodeStore (store : List ProfileRecord) : JVal :=
  .arr (store.map encodeRecord)

/-- Modelled from the spec: reloading the persisted store file. -/
def decodeStore : JVal → Option (List ProfileRecord)
  | .arr xs => decodeRecords xs
  | _ => none

/-! ### Invariants and reachability -/

/-- The number of active records of one family (invariant 2 of §3 bounds it
by one). -/
def activeCount (store : List ProfileRecord) (family : Family) : Nat :=
  (store.filter (fun r => decide (r.family = family) && r.active)).length

/-- Invariants 1 and 2 of §3: id uniqueness across the collection, and at
most one active record per family. -/
def StoreInv (store : List ProfileRecord) : Prop :=
  (store.map (fun r => r.id)).Nodup ∧ ∀ family, activeCount store family ≤ 1

/-- The engine states reachable through the command surface of §6 from the
empty store: add (with the spec's "assigns a new unique id" guarantee carried
as the freshness hypothesis), update, delete, activate and the MergeWriter,
under every possible backend behavior.  `set_active` is not a step: §4.1
restricts it to internal use by the ActivationEngine. -/
inductive Reachable : EngineState → Prop
  | init : Reachable ⟨[], ⟨none, none, none⟩, none⟩
  | add (st : EngineState) (id name : String) (family : Family) (secret endpoint : String)
      (h : Reachable st) (hid : id ∉ st.store.map (fun r => r.id)) :
      Reachable (add_profile st id name family secret endpoint).2
  | update (st : EngineState) (id name secret endpoint : String) (h : Reachable st) :
      Reachable (update_profile st id name secret endpoint).2
  | delete (beh : BackendBehavior) (st : EngineState) (id : String) (h : Reachable st) :
      Reachable (delete_profile beh st id).2
  | activate (beh : BackendBehavior) (st : EngineState) (id : String) (h : Reachable st) :
      Reachable (activate_profile beh st id).2
  | merge (st : EngineState) (sel : Selection) (h : Reachable st) :
      Reachable (apply_merged_config st sel).2

/-! ### Concrete states and behaviors used by the witnesses -/

/-- Backend behavior where every clear and apply succeeds. -/
def behAll : BackendBehavior := ⟨fun _ => true, fun _ => true⟩

/-- Backend behavior where every apply fails. -/
def behApplyFail : BackendBehavior := ⟨fun _ => true, fun _ => false⟩

/-- Backend behavior where every clear fails. -/
def behClearFail : BackendBehavior := ⟨fun _ => false, fun _ => true⟩

/-- The initial engine state. -/
def st0W : EngineState := ⟨[], ⟨none, none, none⟩, none⟩

/-- One profile added to the initial state. -/
def st1W : EngineState :=
  (add_profile st0W ("p1") ("work") Family.EnvFamily ("sk-aaaa-bbbb") ("")).2

/-- The added profile activated. -/
def st2W : EngineState := (activate_profile behAll st1W ("p1")).2

/-- The active record of st2W. -/
def recP1A : ProfileRecord :=
  ⟨("p1"), ("work"), Family.EnvFamily, ("sk-aaaa-bbbb"), (""), true⟩

/-- An inactive second record of the same family. -/
def recP2 : ProfileRecord :=
  ⟨("p2"), ("home"), Family.EnvFamily, ("sk-cccc-dddd"), ("u"), false⟩

/-- A two-record state with p1 active, used to exercise failing backends. -/
def stC2 : EngineState :=
  ⟨[recP1A, recP2], ⟨some (("sk-aaaa-bbbb"), ("")), none, none⟩, none⟩

/-- A selection naming only the EnvFamily profile. -/
def selC6 : Selection := ⟨some ("p1"), none, none⟩

/-- The merged document produced from st2W and selC6. -/
def docC6 : MergedDoc := ⟨some (("sk-aaaa-bbbb"), ("")), none, none⟩

/-- A config whose api_key smuggles raw markup, used against the claim that
every interpolated user string is HTML-escaped. -/
def cEx : Config :=
  ⟨("id1"), ("personal"), ConfigType.claude, ("<img x>abc"), (""), false⟩

/-- A config whose api_key breaks out of the modal's value attribute. -/
def cEx2 : Config :=
  ⟨("id2"), ("n"), ConfigType.claude, ("\" onmouseover=\"alert(1)"), (""), false⟩

/-! ## Helper lemmas -/

theorem two_mem_two_le_length {α : Type} {l : List α} {a b : α}
    (ha : a ∈ l) (hb : b ∈ l) (hab : a ≠ b) : 2 ≤ l.length := by
  match l with
  | [] => cases ha
  | [x] =>
    rw [List.mem_singleton] at ha hb
    exact absurd (ha.trans hb.symm) hab
  | x :: y :: t =>
    simp only [List.length_cons]
    omega

theorem nodup_pairwise_eq_length_le_one {α : Type} {l : List α} (hnd : l.Nodup)
    (hall : ∀ x ∈ l, ∀ y ∈ l, x = y) : l.length ≤ 1 := by
  match l with
  | [] => simp
  | [x] => simp
  | x :: y :: t =>
    exfalso
    have hxy : x = y := hall x (by simp) y (by simp)
    rw [List.nodup_cons] at hnd
    exact hnd.1 (by simp [hxy])

/-- Under id uniqueness, two members of the store sharing an id coincide. -/
theorem mem_id_inj {store : List ProfileRecord}
    (hnd : (store.map (fun r => r.id)).Nodup) {a b : ProfileRecord}
    (ha : a ∈ store) (hb : b ∈ store) (h : a.id = b.id) : a = b :=
  List.inj_on_of_nodup_map hnd ha hb h

theorem findProfile_some {store : List ProfileRecord} {id : String} {r : ProfileRecord}
    (h : findProfile store id = some r) : r ∈ store ∧ r.id = id := by
  unfold findProfile at h
  have hm := List.mem_of_find?_eq_some h
  have hp := List.find?_some h
  simp only [decide_eq_true_eq] at hp
  exact ⟨hm, hp⟩

theorem findOtherActive_some {store : List ProfileRecord} {family : Family} {id : String}
    {r : ProfileRecord} (h : findOtherActive store family id = some r) :
    r ∈ store ∧ r.family = family ∧ r.active = true ∧ r.id ≠ id := by
  unfold findOtherActive at h
  have hm := List.mem_of_find?_eq_some h
  have hp := List.find?_some h
  simp only [decide_eq_true_eq] at hp
  exact ⟨hm, hp.1, hp.2.1, hp.2.2⟩

theorem findOtherActive_none {store : List ProfileRecord} {family : Family} {id : String}
    (h : findOtherActive store family id = none) :
    ∀ r ∈ store, r.family = family → r.active = true → r.id = id := by
  intro r hr hfam hact
  unfold findOtherActive at h
  have hnp := List.find?_eq_none.mp h r hr
  by_contra hne
  exact hnp (decide_eq_true ⟨hfam, hact, hne⟩)

/-- Two distinct active records of one family contradict the at-most-one
bound. -/
theorem active_pair_absurd {store : List ProfileRecord} {fam : Family}
    (hcnt : activeCount store fam ≤ 1) {a b : ProfileRecord}
    (ha : a ∈ store) (hb : b ∈ store) (hne : a ≠ b)
    (hafam : a.family = fam) (haact : a.active = true)
    (hbfam : b.family = fam) (hbact : b.active = true) : False := by
  have ha' : a ∈ store.filter (fun r => decide (r.family = fam) && r.active) := by
    rw [List.mem_filter]
    exact ⟨ha, by simp [hafam, haact]⟩
  have hb' : b ∈ store.filter (fun r => decide (r.family = fam) && r.active) := by
    rw [List.mem_filter]
    exact ⟨hb, by simp [hbfam, hbact]⟩
  have h2 := two_mem_two_le_length ha' hb' hne
  unfold activeCount at hcnt
  omega

/-- An id-preserving rewrite of the records keeps the ids Nodup. -/
theorem nodup_ids_map {store : List ProfileRecord}
    (hnd : (store.map (fun r => r.id)).Nodup) (u : ProfileRecord → ProfileRecord)
    (hid : ∀ r, (u r).id = r.id) : ((store.map u).map (fun r => r.id)).Nodup := by
  rw [List.map_map]
  have he : ((fun r => r.id) ∘ u) = fun r => r.id := funext hid
  rw [he]
  exact hnd

/-- At most one record carries a given id when ids are Nodup. -/
theorem length_filter_id_le_one {store : List ProfileRecord}
    (hnd : (store.map (fun r => r.id)).Nodup) (id : String) :
    (store.filter (fun r => decide (r.id = id))).length ≤ 1 := by
  apply nodup_pairwise_eq_length_le_one
  · exact List.Nodup.sublist (List.filter_sublist store) (List.Nodup.of_map _ hnd)
  · intro x hx y hy
    rw [List.mem_filter] at hx hy
    exact mem_id_inj hnd hx.1 hy.1
      ((of_decide_eq_true hx.2).trans (of_decide_eq_true hy.2).symm)

/-- A record rewrite that keeps ids, touches active flags of the target
family so that exactly the records with the target id end active, and is
activity-neutral on every other family, preserves the store invariant. -/
theorem storeInv_flip_general {store : List ProfileRecord} (h : StoreInv store)
    (g : ProfileRecord → ProfileRecord) (hgid : ∀ r, (g r).id = r.id)
    (tfam : Family) (id : String)
    (hkey : ∀ x ∈ store, (decide ((g x).family = tfam) && (g x).active) = decide (x.id = id))
    (hoff : ∀ fam, ¬fam = tfam → ∀ x ∈ store,
      (decide ((g x).family = fam) && (g x).active) = (decide (x.family = fam) && x.active)) :
    StoreInv (store.map g) := by
  obtain ⟨hnd, hcnt⟩ := h
  refine ⟨nodup_ids_map hnd g hgid, ?_⟩
  intro fam
  unfold activeCount
  rw [List.filter_map, List.length_map]
  by_cases hfam : fam = tfam
  · rw [hfam]
    have he := List.filter_congr (l := store)
      (p := (fun (r : ProfileRecord) => decide (r.family = tfam) && r.active) ∘ g)
      (q := fun x => decide (x.id = id)) (fun x hx => hkey x hx)
    rw [he]
    exact length_filter_id_le_one hnd id
  · have he := List.filter_congr (l := store)
      (p := (fun (r : ProfileRecord) => decide (r.family = fam) && r.active) ∘ g)
      (q := fun x => decide (x.family = fam) && x.active) (fun x hx => hoff fam hfam x hx)
    rw [he]
    exact hcnt fam

/-- A rewrite preserving id, family and active flag of every record
preserves the store invariant (used for update_profile). -/
theorem storeInv_map {store : List ProfileRecord} (h : StoreInv store)
    (u : ProfileRecord → ProfileRecord)
    (hid : ∀ r, (u r).id = r.id) (hfam : ∀ r, (u r).family = r.family)
    (hact : ∀ r, (u r).active = r.active) : StoreInv (store.map u) := by
  obtain ⟨hnd, hcnt⟩ := h
  refine ⟨nodup_ids_map hnd u hid, ?_⟩
  intro fam
  unfold activeCount
  rw [List.filter_map, List.length_map]
  have hp : ∀ x ∈ store, (decide ((u x).family = fam) && (u x).active)
      = (decide (x.family = fam) && x.active) := by
    intro x _
    rw [hfam, hact]
  have he := List.filter_congr (l := store)
    (p := (fun (r : ProfileRecord) => decide (r.family = fam) && r.active) ∘ u)
    (q := fun x => decide (x.family = fam) && x.active) (fun x hx => hp x hx)
  rw [he]
  exact hcnt fam

/-- Appending a fresh inactive record preserves the store invariant (used
for add_profile). -/
theorem storeInv_append_inactive {store : List ProfileRecord} (h : StoreInv store)
    (r : ProfileRecord) (hid : r.id ∉ store.map (fun x => x.id)) (hact : r.active = false) :
    StoreInv (store ++ [r]) := by
  obtain ⟨hnd, hcnt⟩ := h
  constructor
  · rw [List.map_append, List.nodup_append]
    refine ⟨hnd, List.nodup_singleton _, ?_⟩
    intro x hx hx'
    rw [List.map_singleton, List.mem_singleton] at hx'
    subst hx'
    exact hid hx
  · intro fam
    unfold activeCount
    rw [List.filter_append]
    have hnil : List.filter (fun x => decide (x.family = fam) && x.active) [r] = [] := by
      simp [hact]
    rw [hnil, List.append_nil]
    exact hcnt fam

/-- Removing records preserves the store invariant (used for
delete_profile). -/
theorem storeInv_filter {store : List ProfileRecord} (h : StoreInv store)
    (q : ProfileRecord → Bool) : StoreInv (store.filter q) := by
  obtain ⟨hnd, hcnt⟩ := h
  constructor
  · exact List.Nodup.sublist ((List.filter_sublist store).map _) hnd
  · intro fam
    unfold activeCount at hcnt ⊢
    exact le_trans (List.Sublist.length_le ((List.filter_sublist store).filter _)) (hcnt fam)

/-- The successful-activation flag rewrite when a different record of the
family was active: the old record's flag drops, the target's flag rises,
everything else is untouched; the invariant is preserved. -/
theorem storeInv_double_flip {store : List ProfileRecord} (h : StoreInv store)
    {target old : ProfileRecord} {id : String}
    (htmem : target ∈ store) (htid : target.id = id)
    (homem : old ∈ store) (hofam : old.family = target.family)
    (hoact : old.active = true) (hoid : old.id ≠ id) :
    StoreInv (set_active (set_active store old.id false) id true) := by
  obtain ⟨hnd, hcnt⟩ := h
  have hoid' : ¬id = old.id := fun he => hoid he.symm
  unfold set_active
  rw [List.map_map]
  refine storeInv_flip_general ⟨hnd, hcnt⟩ _ ?_ target.family id ?_ ?_
  · intro r
    by_cases h1 : r.id = old.id
    · by_cases h2 : r.id = id
      · exact absurd (h1.symm.trans h2) hoid
      · simp [Function.comp, h1, h2, hoid, hoid']
    · by_cases h2 : r.id = id
      · simp [Function.comp, h1, h2, hoid, hoid']
      · simp [Function.comp, h1, h2]
  · intro x hx
    by_cases h1 : x.id = id
    · by_cases h2 : x.id = old.id
      · exact absurd (h2.symm.trans h1) hoid
      · have hxt : x = target := mem_id_inj hnd hx htmem (h1.trans htid.symm)
        simp [Function.comp, hxt, htid, hoid', hoid]
    · by_cases h2 : x.id = old.id
      · simp [Function.comp, h1, h2, hoid, hoid']
      · simp [Function.comp, h1, h2]
        by_cases hf : x.family = target.family
        · by_cases hactx : x.active = true
          · exfalso
            have hxo : x ≠ old := fun he => h2 (by rw [he])
            exact active_pair_absurd (hcnt target.family) hx homem hxo hf hactx hofam hoact
          · rw [Bool.not_eq_true] at hactx
            simp [hf, hactx]
        · simp [hf]
  · intro fam hfam x hx
    by_cases h1 : x.id = id
    · by_cases h2 : x.id = old.id
      · exact absurd (h2.symm.trans h1) hoid
      · have hxt : x = target := mem_id_inj hnd hx htmem (h1.trans htid.symm)
        have hxf : ¬target.family = fam := fun he => hfam he.symm
        simp [Function.comp, hxt, htid, hoid', hxf]
    · by_cases h2 : x.id = old.id
      · have hxo : x = old := mem_id_inj hnd hx homem h2
        have hxf : ¬old.family = fam := by
          rw [hofam]
          exact fun he => hfam he.symm
        simp [Function.comp, hxo, hoid, hxf]
      · simp [Function.comp, h1, h2]

/-- The successful-activation flag rewrite when no other record of the
family was active: only the target's flag rises; the invariant is
preserved. -/
theorem storeInv_single_flip {store : List ProfileRecord} (h : StoreInv store)
    {target : ProfileRecord} {id : String}
    (htmem : target ∈ store) (htid : target.id = id)
    (hnone : findOtherActive store target.family id = none) :
    StoreInv (set_active store id true) := by
  obtain ⟨hnd, hcnt⟩ := h
  unfold set_active
  refine storeInv_flip_general ⟨hnd, hcnt⟩ _ ?_ target.family id ?_ ?_
  · intro r
    by_cases h1 : r.id = id <;> simp [h1]
  · intro x hx
    by_cases h1 : x.id = id
    · have hxt : x = target := mem_id_inj hnd hx htmem (h1.trans htid.symm)
      simp [hxt, htid]
    · simp [h1]
      by_cases hf : x.family = target.family
      · by_cases hactx : x.active = true
        · exact absurd (findOtherActive_none hnone x hx hf hactx) h1
        · rw [Bool.not_eq_true] at hactx
          simp [hf, hactx]
      · simp [hf]
  · intro fam hfam x hx
    by_cases h1 : x.id = id
    · have hxt : x = target := mem_id_inj hnd hx htmem (h1.trans htid.symm)
      have hxf : ¬target.family = fam := fun he => hfam he.symm
      simp [hxt, htid, hxf]
    · simp [h1]

/-- add_profile preserves the invariant when the id is fresh. -/
theorem storeInv_add (st : EngineState) (id name : String) (family : Family)
    (secret endpoint : String) (h : StoreInv st.store)
    (hid : id ∉ st.store.map (fun r => r.id)) :
    StoreInv ((add_profile st id name family secret endpoint).2).store := by
  unfold add_profile
  by_cases hname : name = ("")
  · rw [if_pos hname]
    exact h
  · rw [if_neg hname]
    exact storeInv_append_inactive h _ hid rfl

/-- update_profile preserves the invariant. -/
theorem storeInv_update (st : EngineState) (id name secret endpoint : String)
    (h : StoreInv st.store) :
    StoreInv ((update_profile st id name secret endpoint).2).store := by
  unfold update_profile
  cases hfind : findProfile st.store id with
  | none => exact h
  | some r =>
    exact storeInv_map h _
      (fun x => by by_cases hx : x.id = id <;> simp [hx])
      (fun x => by by_cases hx : x.id = id <;> simp [hx])
      (fun x => by by_cases hx : x.id = id <;> simp [hx])

/-- delete_profile preserves the invariant. -/
theorem storeInv_delete (beh : BackendBehavior) (st : EngineState) (id : String)
    (h : StoreInv st.store) : StoreInv ((delete_profile beh st id).2).store := by
  unfold delete_profile
  cases hfind : findProfile st.store id with
  | none => exact h
  | some r =>
    dsimp only
    by_cases hact : r.active = true
    · rw [if_pos hact]
      by_cases hclr : beh.clearOk r.family = true
      · rw [if_pos hclr]
        exact storeInv_filter h _
      · rw [if_neg hclr]
        exact h
    · rw [if_neg hact]
      exact storeInv_filter h _

/-- activate_profile preserves the invariant. -/
theorem storeInv_activate (beh : BackendBehavior) (st : EngineState) (id : String)
    (h : StoreInv st.store) : StoreInv ((activate_profile beh st id).2).store := by
  unfold activate_profile
  cases hfind : findProfile st.store id with
  | none => exact h
  | some target =>
    obtain ⟨htmem, htid⟩ := findProfile_some hfind
    dsimp only
    cases hold : findOtherActive st.store target.family id with
    | some old =>
      obtain ⟨homem, hofam, hoact, hoid⟩ := findOtherActive_some hold
      dsimp only
      by_cases hclr : beh.clearOk target.family = true
      · by_cases happ : beh.applyOk target = true
        · rw [if_pos hclr, if_pos happ]
          exact storeInv_double_flip h htmem htid homem hofam hoact hoid
        · rw [if_pos hclr, if_neg happ]
          exact h
      · rw [if_neg hclr]
        exact h
    | none =>
      dsimp only
      by_cases happ : beh.applyOk target = true
      · rw [if_pos happ]
        exact storeInv_single_flip h htmem htid hold
      · rw [if_neg happ]
        exact h

/-- apply_merged_config never touches the store or the surfaces. -/
theorem apply_merged_frame_eq (st : EngineState) (sel : Selection) :
    ((apply_merged_config st sel).2).store = st.store ∧
    ((apply_merged_config st sel).2).surfaces = st.surfaces := by
  unfold apply_merged_config
  split
  · exact ⟨rfl, rfl⟩
  · split <;> exact ⟨rfl, rfl⟩

/-- Invariants 1 and 2 of §3 hold in every reachable engine state. -/
theorem reachable_storeInv {st : EngineState} (h : Reachable st) : StoreInv st.store := by
  induction h with
  | init => exact ⟨List.nodup_nil, fun fam => by simp [activeCount]⟩
  | add st id name family secret endpoint h hid ih => exact storeInv_add st id name family secret endpoint ih hid
  | update st id name secret endpoint h ih => exact storeInv_update st id name secret endpoint ih
  | delete beh st id h ih => exact storeInv_delete beh st id ih
  | activate beh st id h ih => exact storeInv_activate beh st id ih
  | merge st sel h ih =>
    rw [(apply_merged_frame_eq st sel).1]
    exact ih

/-- Clearing a family's surface leaves that family's slot empty. -/
theorem surfaces_read_clear (s : Surfaces) (f : Family) : (s.clear f).read f = none := by
  cases f <;> rfl

/-! ## Claim theorems -/

/-- C1: For every family, after any completed activate_profile call — indeed
in every state reachable through the engine's command surface — the number of
records with that family and active = true is exactly 0 or 1. -/
theorem C1_one_active_per_family {st : EngineState} (h : Reachable st) (family : Family) :
    activeCount st.store family = 0 ∨ activeCount st.store family = 1 := by
  have hle := (reachable_storeInv h).2 family
  omega

/-- C1 witness: the bound evaluated in the concrete reachable state where one
EnvFamily profile was added and then activated. -/
theorem C1_witness :
    activeCount st2W.store Family.EnvFamily = 0 ∨
    activeCount st2W.store Family.EnvFamily = 1 :=
  C1_one_active_per_family
    (Reachable.activate behAll st1W ("p1")
      (Reachable.add st0W ("p1") ("work") Family.EnvFamily ("sk-aaaa-bbbb") ("")
        Reachable.init (by decide)))
    Family.EnvFamily

/-- C2: activate_profile is atomic with respect to activation state: if the
clear of the previously active profile fails, or the backend apply of the
target fails, the call returns the backend's error and the record collection
— in particular every active flag — is unchanged from before the call. -/
theorem C2_activate_fail_atomic (beh : BackendBehavior) (st : EngineState) (id : String)
    (target : ProfileRecord) (hfind : findProfile st.store id = some target)
    (hfail : (∃ old, findOtherActive st.store target.family id = some old ∧
                beh.clearOk target.family = false) ∨
             beh.applyOk target = false) :
    (activate_profile beh st id).1 = Except.error EngineError.BackendError ∧
    ((activate_profile beh st id).2).store = st.store := by
  unfold activate_profile
  rw [hfind]
  dsimp only
  cases hold : findOtherActive st.store target.family id with
  | some old =>
    dsimp only
    rcases hfail with ⟨old2, hold2, hclr⟩ | happ
    · simp [hclr]
    · by_cases hclr : beh.clearOk target.family = true
      · simp [hclr, happ]
      · simp [hclr]
  | none =>
    dsimp only
    rcases hfail with ⟨old2, hold2, hclr⟩ | happ
    · rw [hold] at hold2
      exact Option.noConfusion hold2
    · simp [happ]

/-- C2 witness: activating p2 while p1 is active under a backend whose clear
fails returns BackendError and leaves the two records untouched. -/
theorem C2_witness :
    (activate_profile behClearFail stC2 ("p2")).1 = Except.error EngineError.BackendError ∧
    ((activate_profile behClearFail stC2 ("p2")).2).store = stC2.store :=
  C2_activate_fail_atomic behClearFail stC2 ("p2") recP2 (by decide)
    (Or.inl ⟨recP1A, by decide, rfl⟩)

/-- C3: deleting a profile that is currently active clears its family's real
configuration surface (the deletion only completes after a successful clear);
afterwards the record is gone and no profile of that family is marked
active. -/
theorem C3_delete_active_clears (beh : BackendBehavior) {st : EngineState}
    (hreach : Reachable st) (id : String) (r : ProfileRecord)
    (hfind : findProfile st.store id = some r) (hact : r.active = true)
    (hok : (delete_profile beh st id).1 = Except.ok ()) :
    (((delete_profile beh st id).2).surfaces).read r.family = none ∧
    (∀ x ∈ ((delete_profile beh st id).2).store, x.id ≠ id) ∧
    (∀ x ∈ ((delete_profile beh st id).2).store, x.family = r.family → x.active = false) := by
  obtain ⟨hnd, hcnt⟩ := reachable_storeInv hreach
  obtain ⟨hmem, hid⟩ := findProfile_some hfind
  unfold delete_profile at hok ⊢
  rw [hfind] at hok ⊢
  dsimp only at hok ⊢
  rw [if_pos hact] at hok ⊢
  by_cases hclr : beh.clearOk r.family = true
  · rw [if_pos hclr] at hok ⊢
    refine ⟨surfaces_read_clear st.surfaces r.family, ?_, ?_⟩
    · intro x hxmem
      rw [List.mem_filter] at hxmem
      exact of_decide_eq_true hxmem.2
    · intro x hxmem hxfam
      rw [List.mem_filter] at hxmem
      have hxid : x.id ≠ id := of_decide_eq_true hxmem.2
      by_cases hactx : x.active = true
      · exfalso
        have hxr : x ≠ r := fun he => hxid (by rw [he, hid])
        exact active_pair_absurd (hcnt r.family) hxmem.1 hmem hxr hxfam hactx rfl hact
      · rw [Bool.not_eq_true] at hactx
        exact hactx
  · rw [if_neg hclr] at hok
    exact Except.noConfusion hok

/-- C3 witness: deleting the active p1 from the reachable two-step state
leaves the EnvFamily surface empty. -/
theorem C3_witness :
    (((delete_profile behAll st2W ("p1")).2).surfaces).read recP1A.family = none :=
  (C3_delete_active_clears behAll
    (Reachable.activate behAll st1W ("p1")
      (Reachable.add st0W ("p1") ("work") Family.EnvFamily ("sk-aaaa-bbbb") ("")
        Reachable.init (by decide)))
    ("p1") recP1A (by decide) rfl rfl).1

/-- C5: apply_merged_config on the entirely empty selection fails with
ValidationError and leaves the whole state — in particular the output
document — unchanged: nothing is written. -/
theorem C5_empty_selection (st : EngineState) :
    (apply_merged_config st ⟨none, none, none⟩).1 = Except.error EngineError.ValidationError ∧
    (apply_merged_config st ⟨none, none, none⟩).2 = st := by
  unfold apply_merged_config
  exact ⟨rfl, rfl⟩

/-- C7: apply_merged_config leaves the ProfileStore entirely unchanged for
every selection: the record collection (with every active flag) and the
activation surfaces after the call are exactly those before it. -/
theorem C7_merge_frame (st : EngineState) (sel : Selection) :
    ((apply_merged_config st sel).2).store = st.store ∧
    ((apply_merged_config st sel).2).surfaces = st.surfaces :=
  apply_merged_frame_eq st sel

theorem resolveSection_of_none {store : List ProfileRecord} {out : Option (String × String)}
    (h : resolveSection store none = Except.ok out) : out = none := by
  unfold resolveSection at h
  exact (Except.ok.injEq _ _).mp h.symm

theorem resolveSection_of_some {store : List ProfileRecord} {pid : String}
    {out : Option (String × String)} (h : resolveSection store (some pid) = Except.ok out) :
    ∃ r, findProfile store pid = some r ∧ out = some (r.secret, r.endpoint) := by
  unfold resolveSection at h
  dsimp only at h
  cases hf : findProfile store pid with
  | none =>
    rw [hf] at h
    exact Except.noConfusion h
  | some r =>
    rw [hf] at h
    dsimp only at h
    exact ⟨r, rfl, ((Except.ok.injEq _ _).mp h).symm⟩

/-- C6: a successful apply_merged_config produces a document with exactly one
populated section per selected family — holding the resolved profile's
secret/endpoint — while families whose id is null are omitted (their section
is absent, not an empty placeholder). -/
theorem C6_merged_sections (st : EngineState) (sel : Selection) (doc : MergedDoc)
    (h : (apply_merged_config st sel).1 = Except.ok doc) :
    (sel.envId = none → doc.envSection = none) ∧
    (∀ pid, sel.envId = some pid →
      ∃ r, findProfile st.store pid = some r ∧ doc.envSection = some (r.secret, r.endpoint)) ∧
    (sel.fileAId = none → doc.fileASection = none) ∧
    (∀ pid, sel.fileAId = some pid →
      ∃ r, findProfile st.store pid = some r ∧ doc.fileASection = some (r.secret, r.endpoint)) ∧
    (sel.fileBId = none → doc.fileBSection = none) ∧
    (∀ pid, sel.fileBId = some pid →
      ∃ r, findProfile st.store pid = some r ∧ doc.fileBSection = some (r.secret, r.endpoint)) := by
  unfold apply_merged_config at h
  by_cases hempty : sel.envId = none ∧ sel.fileAId = none ∧ sel.fileBId = none
  · rw [if_pos hempty] at h
    exact Except.noConfusion h
  · rw [if_neg hempty] at h
    cases he : resolveSection st.store sel.envId with
    | error e =>
      rw [he] at h
      exact Except.noConfusion h
    | ok a =>
      cases hb : resolveSection st.store sel.fileAId with
      | error e =>
        rw [he, hb] at h
        exact Except.noConfusion h
      | ok b =>
        cases hc : resolveSection st.store sel.fileBId with
        | error e =>
          rw [he, hb, hc] at h
          exact Except.noConfusion h
        | ok c =>
          rw [he, hb, hc] at h
          dsimp only at h
          have hdoc : doc = ⟨a, b, c⟩ := ((Except.ok.injEq _ _).mp h).symm
          subst hdoc
          refine ⟨?_, ?_, ?_, ?_, ?_, ?_⟩
          · intro hn
            rw [hn] at he
            exact resolveSection_of_none he
          · intro pid hs
            rw [hs] at he
            exact resolveSection_of_some he
          · intro hn
            rw [hn] at hb
            exact resolveSection_of_none hb
          · intro pid hs
            rw [hs] at hb
            exact resolveSection_of_some hb
          · intro hn
            rw [hn] at hc
            exact resolveSection_of_none hc
          · intro pid hs
            rw [hs] at hc
            exact resolveSection_of_some hc

/-- C6 witness: from the state holding the activated p1 and the selection
naming only the EnvFamily profile, the produced document omits the FileFamilyA
section. -/
theorem C6_witness : docC6.fileASection = none :=
  (C6_merged_sections st2W selC6 docC6 (by rfl)).2.2.1 rfl

/-- C8: update_profile of an existing id rewrites only the name, secret and
endpoint of the matching record: every record's id, family and active flag is
positionally unchanged, every record with another id is untouched, and the
matching record keeps its id and family. -/
theorem C8_update_frame (st : EngineState) (id name secret endpoint : String)
    (r : ProfileRecord) (hfind : findProfile st.store id = some r) :
    ((update_profile st id name secret endpoint).2).store.map (fun x => x.id)
      = st.store.map (fun x => x.id) ∧
    ((update_profile st id name secret endpoint).2).store.map (fun x => x.family)
      = st.store.map (fun x => x.family) ∧
    ((update_profile st id name secret endpoint).2).store.map (fun x => x.active)
      = st.store.map (fun x => x.active) ∧
    (∀ x ∈ st.store, x.id ≠ id → x ∈ ((update_profile st id name secret endpoint).2).store) ∧
    (∀ x ∈ st.store, x.id = id →
      ({ x with name := name, secret := secret, endpoint := endpoint })
        ∈ ((update_profile st id name secret endpoint).2).store) := by
  unfold update_profile
  rw [hfind]
  dsimp only
  refine ⟨?_, ?_, ?_, ?_, ?_⟩
  · rw [List.map_map]
    apply List.map_congr_left
    intro x _
    by_cases hx : x.id = id <;> simp [Function.comp, hx]
  · rw [List.map_map]
    apply List.map_congr_left
    intro x _
    by_cases hx : x.id = id <;> simp [Function.comp, hx]
  · rw [List.map_map]
    apply List.map_congr_left
    intro x _
    by_cases hx : x.id = id <;> simp [Function.comp, hx]
  · intro x hx hne
    refine List.mem_map.mpr ⟨x, hx, ?_⟩
    simp [hne]
  · intro x hx he
    refine List.mem_map.mpr ⟨x, hx, ?_⟩
    simp [he]

/-- C8 witness: updating p1 in the two-record state keeps the family column
unchanged. -/
theorem C8_witness :
    ((update_profile stC2 ("p1") ("renamed") ("sk-eeee-ffff") ("u2")).2).store.map
      (fun x => x.family) = stC2.store.map (fun x => x.family) :=
  (C8_update_frame stC2 ("p1") ("renamed") ("sk-eeee-ffff") ("u2") recP1A (by decide)).2.1

theorem decodeRecord_encodeRecord (r : ProfileRecord) :
    decodeRecord (encodeRecord r) = some r := by
  obtain ⟨i, n, fam, s, e, a⟩ := r
  cases fam <;> rfl

theorem decodeRecords_map (l : List ProfileRecord) :
    decodeRecords (l.map encodeRecord) = some l := by
  induction l with
  | nil => rfl
  | cons r rs ih =>
    dsimp only [List.map]
    unfold decodeRecords
    rw [decodeRecord_encodeRecord, ih]

/-- C9: serializing any collection of ProfileRecords to the persisted store
document and reloading it yields the identical in-memory collection — record
ordering and every field (id, name, family, secret, endpoint, active)
preserved. -/
theorem C9_roundtrip (store : List ProfileRecord) :
    decodeStore (encodeStore store) = some store := by
  unfold encodeStore decodeStore
  exact decodeRecords_map store

/-- C4 counterexample: for the 11-character api_key "abcdefghijk" the masked
form shown in the config list is "abcdefg...hijk", which contains every
character of the key in order — maskToken reveals all characters of keys of
length 10 or 11. -/
theorem C4_counterexample :
    List.Sublist (("abcdefghijk").data) ((maskToken ("abcdefghijk")).data) ∧
    maskToken ("abcdefghijk") = ("abcdefg...hijk") :=
  ⟨by decide, by decide⟩

/-- C4 amended: for every api_key of length at least 12 that does not itself
contain the mask's dot character, maskToken's output omits at least one
character occurrence: the key's characters never all appear, in order, in the
masked form.  (Keys shorter than 10 characters are replaced wholesale by
"****"; keys of exactly 10 or 11 characters are revealed in full.) -/
theorem C4_mask_conceals (t : String) (hlen : 12 ≤ t.length)
    (hdot : ('.') ∉ t.data) : ¬List.Sublist t.data ((maskToken t).data) := by
  intro hsub
  unfold maskToken at hsub
  rw [if_neg (by omega)] at hsub
  dsimp only at hsub
  obtain ⟨l1, l2, ht, h1, h2⟩ := List.sublist_append_iff.mp hsub
  obtain ⟨u, v, hl1, hu, hv⟩ := List.sublist_append_iff.mp h1
  have hv0 : v = [] := by
    cases v with
    | nil => rfl
    | cons c cs =>
      exfalso
      have hc : c ∈ [('.'), ('.'), ('.')] := hv.subset (List.mem_cons_self c cs)
      have hcd : c = ('.') := by simpa using hc
      apply hdot
      rw [ht, hl1, ← hcd]
      exact List.mem_append.mpr (Or.inl (List.mem_append.mpr (Or.inr (List.mem_cons_self c cs))))
  rw [hv0, List.append_nil] at hl1
  subst hl1
  have htake : (List.take 7 t.data).length ≤ 7 := by
    rw [List.length_take]
    exact Nat.min_le_left _ _
  have hu7 : l1.length ≤ 7 := le_trans hu.length_le htake
  have hdl : t.data.length = t.length := rfl
  have hl24 : l2.length ≤ 4 := by
    have hd := h2.length_le
    rw [List.length_drop] at hd
    omega
  have hlen2 : t.data.length = l1.length + l2.length := by
    rw [ht, List.length_append]
  omega

/-- C4 witness: a 16-character key without dots is never fully revealed by
maskToken. -/
theorem C4_witness :
    ¬List.Sublist (("sk-ant-aaaa-bbbb").data) ((maskToken ("sk-ant-aaaa-bbbb")).data) :=
  C4_mask_conceals ("sk-ant-aaaa-bbbb") (by decide) (by decide)

theorem escChar_no_raw (c : Char) :
    ('<') ∉ escChar c ∧ ('>') ∉ escChar c ∧ ('\"') ∉ escChar c := by
  unfold escChar
  by_cases h1 : c = '&'
  · rw [if_pos h1]
    exact ⟨by decide, by decide, by decide⟩
  · rw [if_neg h1]
    by_cases h2 : c = '<'
    · rw [if_pos h2]
      exact ⟨by decide, by decide, by decide⟩
    · rw [if_neg h2]
      by_cases h3 : c = '>'
      · rw [if_pos h3]
        exact ⟨by decide, by decide, by decide⟩
      · rw [if_neg h3]
        by_cases h4 : c = '\"'
        · rw [if_pos h4]
          exact ⟨by decide, by decide, by decide⟩
        · rw [if_neg h4]
          refine ⟨?_, ?_, ?_⟩ <;> intro hm <;> rw [List.mem_singleton] at hm
          · exact h2 hm.symm
          · exact h3 hm.symm
          · exact h4 hm.symm

theorem escapeList_no_raw (l : List Char) :
    ('<') ∉ escapeList l ∧ ('>') ∉ escapeList l ∧ ('\"') ∉ escapeList l := by
  induction l with
  | nil =>
    refine ⟨?_, ?_, ?_⟩ <;> intro hm <;> simp [escapeList] at hm
  | cons c cs ih =>
    obtain ⟨e1, e2, e3⟩ := escChar_no_raw c
    refine ⟨?_, ?_, ?_⟩ <;> intro hm <;> unfold escapeList at hm <;>
      rw [List.mem_append] at hm
    · rcases hm with h | h
      · exact e1 h
      · exact ih.1 h
    · rcases hm with h | h
      · exact e2 h
      · exact ih.2.1 h
    · rcases hm with h | h
      · exact e3 h
      · exact ih.2.2 h

theorem isPrefixOf_append_self (n b : List Char) : List.isPrefixOf n (n ++ b) = true := by
  induction n with
  | nil => cases b <;> rfl
  | cons c cs ih => simp [List.isPrefixOf, ih]

theorem hasSeg_self_append (n b : List Char) : hasSeg n (n ++ b) = true := by
  cases n with
  | nil =>
    cases b with
    | nil => rfl
    | cons x xs => simp [hasSeg, List.isPrefixOf]
  | cons c cs =>
    dsimp only [List.cons_append]
    unfold hasSeg
    have hp := isPrefixOf_append_self (c :: cs) b
    rw [List.cons_append] at hp
    rw [hp, Bool.true_or]

theorem hasSeg_mono_prepend (x n rest : List Char) (h : hasSeg n rest = true) :
    hasSeg n (x ++ rest) = true := by
  induction x with
  | nil => exact h
  | cons c cs ih =>
    dsimp only [List.cons_append]
    unfold hasSeg
    rw [ih, Bool.or_true]

theorem isPrefixOf_mono_append {n l : List Char} (b : List Char)
    (h : List.isPrefixOf n l = true) : List.isPrefixOf n (l ++ b) = true := by
  induction n generalizing l with
  | nil => cases l ++ b <;> rfl
  | cons c cs ih =>
    cases l with
    | nil => simp [List.isPrefixOf] at h
    | cons x xs =>
      simp only [List.cons_append, List.isPrefixOf, Bool.and_eq_true] at h ⊢
      exact ⟨h.1, ih h.2⟩

theorem hasSeg_mono_append {n a : List Char} (b : List Char)
    (h : hasSeg n a = true) : hasSeg n (a ++ b) = true := by
  induction a with
  | nil =>
    have hn : n = [] := by
      unfold hasSeg at h
      simpa [List.isEmpty_iff] using h
    subst hn
    cases b with
    | nil => rfl
    | cons x xs => simp [hasSeg, List.isPrefixOf]
  | cons c cs ih =>
    unfold hasSeg at h ⊢
    dsimp only [List.cons_append]
    rw [Bool.or_eq_true] at h
    rcases h with hp | hr
    · have hp2 := isPrefixOf_mono_append b hp
      rw [List.cons_append] at hp2
      rw [hp2, Bool.true_or]
    · rw [ih hr, Bool.or_true]

theorem hasSeg_refl (n : List Char) : hasSeg n n = true := by
  have hs := hasSeg_self_append n []
  rwa [List.append_nil] at hs

/-- A segment occurring in the left part of a string concatenation occurs in
the whole. -/
theorem hasSeg_str_append_right (x y : String) (n : List Char)
    (h : hasSeg n x.data = true) : hasSeg n ((x ++ y)).data = true := by
  rw [String.data_append]
  exact hasSeg_mono_append _ h

/-- A segment occurring in the right part of a string concatenation occurs in
the whole. -/
theorem hasSeg_str_append_left (x y : String) (n : List Char)
    (h : hasSeg n y.data = true) : hasSeg n ((x ++ y)).data = true := by
  rw [String.data_append]
  exact hasSeg_mono_prepend _ _ _ h

set_option maxRecDepth 100000 in
/-- C10 counterexample: the api_key is not passed through escapeHtml in
either rendering path.  renderConfigList interpolates maskToken(api_key),
which preserves raw markup — the tag "<img x>" of the key reaches the
generated HTML verbatim, while escapeHtml would have eliminated every raw
angle bracket — and openModal interpolates the raw api_key into the value
attribute, letting a quote break out of it. -/
theorem C10_counterexample :
    hasSeg (("<img x>").data) ((renderConfigItem cEx).data) = true ∧
    hasSeg (("<img").data) ((escapeHtml cEx.api_key).data) = false ∧
    hasSeg (("value=\"\" onmouseover=\"alert(1)\" required>").data)
      ((openModalHtml (some cEx2) ConfigType.claude).data) = true :=
  ⟨by decide, by decide, by decide⟩

/-- C10 amended: escapeHtml's output contains no raw angle bracket or
double-quote character for any input, and the name (like base_url) is
interpolated through escapeHtml — the escaped name appears as a segment of
both the config-list item markup and the modal markup.  The api_key, by
contrast, is interpolated without escapeHtml (via maskToken in the list,
verbatim in the modal). -/
theorem C10_escaping (s : String) (c : Config) :
    ('<') ∉ (escapeHtml s).data ∧ ('>') ∉ (escapeHtml s).data ∧
    ('\"') ∉ (escapeHtml s).data ∧
    hasSeg ((escapeHtml c.name).data) ((renderConfigItem c).data) = true ∧
    hasSeg ((escapeHtml c.name).data) ((openModalHtml (some c) c.config_type).data) = true := by
  obtain ⟨e1, e2, e3⟩ := escapeList_no_raw s.data
  refine ⟨e1, e2, e3, ?_, ?_⟩
  · unfold renderConfigItem
    refine hasSeg_str_append_right _ _ _ ?_
    refine hasSeg_str_append_right _ _ _ ?_
    refine hasSeg_str_append_right _ _ _ ?_
    refine hasSeg_str_append_right _ _ _ ?_
    refine hasSeg_str_append_right _ _ _ ?_
    refine hasSeg_str_append_right _ _ _ ?_
    refine hasSeg_str_append_right _ _ _ ?_
    refine hasSeg_str_append_right _ _ _ ?_
    refine hasSeg_str_append_right _ _ _ ?_
    refine hasSeg_str_append_right _ _ _ ?_
    refine hasSeg_str_append_right _ _ _ ?_
    refine hasSeg_str_append_left _ _ _ ?_
    exact hasSeg_refl _
  · unfold openModalHtml
    refine hasSeg_str_append_right _ _ _ ?_
    refine hasSeg_str_append_right _ _ _ ?_
    refine hasSeg_str_append_right _ _ _ ?_
    refine hasSeg_str_append_right _ _ _ ?_
    refine hasSeg_str_append_right _ _ _ ?_
    refine hasSeg_str_append_right _ _ _ ?_
    refine hasSeg_str_append_right _ _ _ ?_
    refine hasSeg_str_append_right _ _ _ ?_
    refine hasSeg_str_append_right _ _ _ ?_
    refine hasSeg_str_append_right _ _ _ ?_
    refine hasSeg_str_append_right _ _ _ ?_
    refine hasSeg_str_append_right _ _ _ ?_
    refine hasSeg_str_append_right _ _ _ ?_
    refine hasSeg_str_append_left _ _ _ ?_
    exact hasSeg_refl _

end ConfigManager
